import Mathlib

set_option maxHeartbeats 1000000

/-!
Shallow embedding of src/lib/charm/vault.py, the vault bootstrap, unseal
and access-provisioning helpers of the charm.

Modelling conventions:
- The stateful Python code is modelled by explicit state passing over a
  `World` holding the external vault server state, the juju leader
  database and the ambient capabilities (service running, leadership,
  the unsafe-auto-unlock config flag).
- Calls to the vault server or to process supervision are recorded as
  `Event`s in a trace; Python exceptions are modelled by an optional
  `Err` in the result, which short-circuits the rest of the pass while
  keeping the trace accumulated so far.
- The leader database stores strings; the JSON-encoded key list written
  by json.dumps is modelled by the typed value `StoreVal.ks`, and
  json.loads of a non-list value is a decode error.
- The vault server is external to the repository; its visible behaviour
  (initialize produces keys and a root token, unseal counts valid key
  shares up to a threshold, mounts and auth backends are listed with a
  trailing slash) is modelled from the operations the charm uses.
-/

/-- Role options passed to hvac create_role by the charm. -/
structure RoleOpts where
  token_ttl : String
  token_max_ttl : String
  policies : List String
  bind_secret_id : String
  bound_cidr_list : String
deriving DecidableEq

/-- State of the external vault server, as visible through the hvac
client operations the charm uses. `progress` counts valid unseal key
shares submitted so far while sealed. -/
structure VaultServer where
  initialized : Bool
  sealed : Bool
  keyset : List String
  threshold : Nat
  progress : Nat
  rootToken : String
  authBackends : List String
  mounts : List String
  policies : List (String × String)
  roles : List (String × RoleOpts)
deriving DecidableEq

/-- The two health fields the charm reads from /v1/sys/health. -/
structure Health where
  initialized : Bool
  sealed : Bool
deriving DecidableEq

/-- A value in the leader database: a plain string, or the
JSON-serialized list of unseal keys written by json.dumps. -/
inductive StoreVal where
  | s (v : String)
  | ks (v : List String)
deriving DecidableEq

/-- Observable actions of a pass: remote vault API calls, leader
database writes and process supervision calls. `setupAccess` records
the construction of the hvac client in setup_charm_vault_access,
carrying the server sealed state at that moment and the admin token
the client is built with. -/
inductive Event where
  | initializeCall (shares threshold : Nat)
  | leaderSet (kvs : List (String × StoreVal))
  | unsealCall (key : String)
  | setupAccess (sealedNow : Bool) (token : Option String)
  | enableAuthBackend (name : String)
  | setPolicy (name : String)
  | createRole (name : String)
  | enableSecretBackend (name : String)
  | serviceRestart (name : String)
  | serviceStart (name : String)
deriving DecidableEq

/-- Python exceptions the modelled code can raise. `keyError k` is a
KeyError on the leader settings dict; `jsonError` a json.loads failure;
`apiError` a vault API error (initialize on an initialized server). -/
inductive Err where
  | keyError (k : String)
  | jsonError
  | apiError
deriving DecidableEq

/-- The world a reconciliation pass runs in. Leadership and the config
flag are stable for the duration of one pass. -/
structure World where
  serviceRunning : Bool
  isLeader : Bool
  unsafeUnlock : Bool
  vault : VaultServer
  db : List (String × StoreVal)
deriving DecidableEq

/-- Result of a modelled stateful call: final world, trace of events,
and the exception it raised, if any. -/
structure Res where
  w : World
  tr : List Event
  err : Option Err
deriving DecidableEq

def CHARM_ACCESS_ROLE : String := "local-charm-access"

def CHARM_POLICY_NAME : String := "local-charm-policy"

/-- The charm policy HCL document. Its text is an abstract marker here:
no claim depends on the body, only on the name it is stored under. -/
def CHARM_POLICY : String := "charm-policy-hcl-document"

/-- Deterministic stand-in for the fresh unseal keys generated by the
vault server on initialize. -/
def mkKey (i : Nat) : String := "unseal-key-" ++ Nat.repr i

/-- Deterministic stand-in for the fresh root token generated by the
vault server on initialize. -/
def mkRootToken : String := "generated-root-token"

/-- hookenv.leader_get(key): read one key of the leader database. -/
def leader_get (db : List (String × StoreVal)) (k : String) : Option StoreVal :=
  (db.find? (fun p => p.1 == k)).map (fun p => p.2)

/-- hookenv.leader_set(kvs): merge the given settings into the leader
database, replacing existing keys. -/
def leader_set (db kvs : List (String × StoreVal)) : List (String × StoreVal) :=
  kvs ++ db.filter (fun p => kvs.all (fun q => q.1 != p.1))

/-- Vault server reaction to client.unseal(key): while sealed, a valid
key share advances progress, and reaching the threshold unseals; an
unseal call on an unsealed server is a no-op. -/
def submitKey (v : VaultServer) (k : String) : VaultServer :=
  if v.sealed = false then v
  else if v.keyset.contains k then
    if v.threshold ≤ v.progress + 1 then { v with sealed := false, progress := 0 }
    else { v with progress := v.progress + 1 }
  else v

/-- Health as reported by the local vault server. -/
def healthOf (v : VaultServer) : Health := ⟨v.initialized, v.sealed⟩

/-- Python truthiness of the optional token argument: None and the
empty string are falsy. -/
def falsyToken : Option String → Bool
  | none => true
  | some s => s.isEmpty

/-- hookenv.leader_get("token"): the leader database value under key
"token", when it is a plain string. -/
def leaderTokenLookup (db : List (String × StoreVal)) : Option String :=
  match leader_get db "token" with
  | some (StoreVal.s t) => some t
  | _ => none

/-- Lines 138-139 of vault.py: if not token, fall back to the leader
database value under key "token". -/
def resolveToken (db : List (String × StoreVal)) (token : Option String) : Option String :=
  if falsyToken token then leaderTokenLookup db else token

/-- enable_approle_auth (lines 103-109): enable the approle auth
backend unless "approle/" is already listed. -/
def enable_approle_auth (v : VaultServer) : VaultServer × List Event :=
  if "approle/" ∉ v.authBackends then
    ({ v with authBackends := "approle/" :: v.authBackends },
     [Event.enableAuthBackend "approle"])
  else (v, [])

/-- client.set_policy(name, hcl): upsert of a named policy. -/
def set_policy (v : VaultServer) (name hcl : String) : VaultServer :=
  { v with policies := (name, hcl) :: v.policies.filter (fun p => p.1 != name) }

/-- client.create_role(name, opts): upsert of a named approle role. -/
def create_role (v : VaultServer) (name : String) (opts : RoleOpts) : VaultServer :=
  { v with roles := (name, opts) :: v.roles.filter (fun p => p.1 != name) }

/-- client.get_role_id(name): the server-assigned role id, modelled as
a deterministic function of the role name. -/
def get_role_id (name : String) : String := "role-id-" ++ name

/-- create_local_charm_access_role (lines 112-128): create the
local-charm-access role with the fixed options and fetch its id. -/
def create_local_charm_access_role (v : VaultServer) (policies : List String) :
    VaultServer × String :=
  (create_role v CHARM_ACCESS_ROLE ⟨"60s", "60s", policies, "false", "127.0.0.1/32"⟩,
   get_role_id CHARM_ACCESS_ROLE)

/-- setup_charm_vault_access (lines 131-146): resolve the admin token
(explicit argument, else leader key "token"), build the hvac client
(recorded as the setupAccess event), enable approle auth, set the charm
policy, create the access role and return its id. -/
def setup_charm_vault_access (w : World) (token : Option String) : Res × String :=
  let tok := resolveToken w.db token
  let ev0 := Event.setupAccess w.vault.sealed tok
  let p1 := enable_approle_auth w.vault
  let v2 := set_policy p1.1 CHARM_POLICY_NAME CHARM_POLICY
  let p3 := create_local_charm_access_role v2 [CHARM_POLICY_NAME]
  (⟨{ w with vault := p3.1 },
    ev0 :: p1.2 ++ [Event.setPolicy CHARM_POLICY_NAME, Event.createRole CHARM_ACCESS_ROLE],
    none⟩, p3.2)

/-- initialize_vault (lines 209-223): client.initialize(shares,
threshold), then leader_set of the resulting root token and the
json.dumps-encoded key list. A vault API error results if the server
is already initialized. -/
def initialize_vault (w : World) (shares threshold : Nat) : Res :=
  if w.vault.initialized then
    ⟨w, [Event.initializeCall shares threshold], some Err.apiError⟩
  else
    let newKeys := (List.range shares).map mkKey
    let kvs := [("root_token", StoreVal.s mkRootToken), ("keys", StoreVal.ks newKeys)]
    ⟨{ w with
        vault := { w.vault with
          initialized := true, sealed := true, keyset := newKeys,
          threshold := threshold, progress := 0, rootToken := mkRootToken },
        db := leader_set w.db kvs },
      [Event.initializeCall shares threshold, Event.leaderSet kvs], none⟩

/-- Submit each key in order to the server (the for loop of
unseal_vault, lines 232-233). -/
def runUnseal (w : World) (ks : List String) : Res :=
  ⟨{ w with vault := ks.foldl submitKey w.vault }, ks.map Event.unsealCall, none⟩

/-- Line 231 of vault.py: json.loads(hookenv.leader_get()["keys"]).
A missing "keys" entry is a KeyError; a value that is not the encoded
key list fails to decode. -/
def loadStoredKeys (db : List (String × StoreVal)) : Except Err (List String) :=
  match leader_get db "keys" with
  | none => Except.error (Err.keyError "keys")
  | some (StoreVal.s _) => Except.error Err.jsonError
  | some (StoreVal.ks ks) => Except.ok ks

/-- Unseal using the keys stored in the leader database. -/
def unsealFromStore (w : World) : Res :=
  match loadStoredKeys w.db with
  | Except.error e => ⟨w, [], some e⟩
  | Except.ok ks => runUnseal w ks

/-- unseal_vault (lines 226-233): if the keys argument is falsy (None
or the empty list), load the keys from the leader database, then submit
each key. -/
def unseal_vault (w : World) (keys : Option (List String)) : Res :=
  match keys with
  | some ks => if ks.isEmpty then unsealFromStore w else runUnseal w ks
  | none => unsealFromStore w

/-- prepare_vault (lines 191-206): defer if the service is not running;
take one health snapshot; initialize when uninitialized and leader;
unseal when the snapshot says sealed; provision charm access when
leader. An exception aborts the rest of the pass. -/
def prepare_vault (w : World) : Res :=
  if !w.serviceRunning then ⟨w, [], none⟩
  else
    let h := healthOf w.vault
    let r1 := if !h.initialized && w.isLeader then initialize_vault w 1 1
              else ⟨w, [], none⟩
    match r1.err with
    | some _ => r1
    | none =>
      let r2 := if h.sealed then unseal_vault r1.w none else ⟨r1.w, [], none⟩
      match r2.err with
      | some e => ⟨r2.w, r1.tr ++ r2.tr, some e⟩
      | none =>
        if w.isLeader then
          let r3 := (setup_charm_vault_access r2.w none).1
          ⟨r3.w, r1.tr ++ r2.tr ++ r3.tr, r3.err⟩
        else ⟨r2.w, r1.tr ++ r2.tr, none⟩

/-- can_restart (lines 236-256): not running, or the unsafe auto-unlock
config flag, or not initialized, or sealed. -/
def can_restart (w : World) : Bool :=
  if !w.serviceRunning then true
  else if w.unsafeUnlock then true
  else if !w.vault.initialized then true
  else if w.vault.sealed then true
  else false

/-- opportunistic_restart (lines 181-188): restart the vault service
when can_restart allows it, otherwise only start it. -/
def opportunistic_restart (w : World) : List Event :=
  if can_restart w then [Event.serviceRestart "vault"]
  else [Event.serviceStart "vault"]

/-- configure_secret_backend (lines 259-269): enable a KV backend at
mount point name unless "name/" is already listed among the mounted
secret backends. -/
def configure_secret_backend (v : VaultServer) (name : String) : VaultServer × List Event :=
  if (name ++ "/") ∉ v.mounts then
    ({ v with mounts := (name ++ "/") :: v.mounts },
     [Event.enableSecretBackend name])
  else (v, [])

/-- One attempt of the tenacity-wrapped health request, with the number
of remaining attempts as fuel: a success returns immediately, a
transport failure on the last attempt is re-raised (reraise=True), and
otherwise the next attempt runs. The pair counts attempts made. -/
def attemptFrom (request : Nat → Except String Health) : Nat → Nat → Except String Health × Nat
  | _, 0 => (Except.error "", 0)
  | i, Nat.succ m =>
    match request i, m with
    | Except.ok h, _ => (Except.ok h, 1)
    | Except.error e, 0 => (Except.error e, 1)
    | Except.error _, Nat.succ m2 =>
      let r := attemptFrom request (i + 1) (Nat.succ m2)
      (r.1, r.2 + 1)

/-- get_vault_health (lines 167-178): the health request under
tenacity.retry with stop_after_attempt(10) and reraise=True. The
environment is the outcome of each attempt. -/
def get_vault_health (request : Nat → Except String Health) : Except String Health × Nat :=
  attemptFrom request 0 10

/-- Spec 4.4 decision table for canRestart, written from the words of
the spec to be compared with can_restart from the source. -/
def canRestartSpec (running unsafeFlag initialized sealedNow : Bool) : Bool :=
  if running = false then true
  else if unsafeFlag then true
  else if initialized = false then true
  else if sealedNow then true
  else false

/-- A trace provisions only while unsealed when every setupAccess event
in it carries sealedNow = false. -/
def sealedProvisionFree (tr : List Event) : Bool :=
  tr.all (fun e =>
    match e with
    | Event.setupAccess sealedNow _ => !sealedNow
    | _ => true)

/-- An empty fresh vault server: not initialized, sealed, nothing
mounted or configured. -/
def emptyVault : VaultServer := ⟨false, true, [], 1, 0, "", [], [], [], []⟩

/-- A world with a fresh vault, leadership, the service running, an
empty leader database and the unsafe flag off. -/
def baseWorld : World := ⟨true, true, false, emptyVault, []⟩

/-- A follower world: service running, not the leader, vault
initialized and sealed, empty leader database. -/
def followerWorld : World :=
  ⟨true, false, false, { emptyVault with initialized := true }, []⟩

/-- A sealed, initialized leader world with an empty leader database. -/
def sealedLeaderWorld : World :=
  ⟨true, true, false, { emptyVault with initialized := true }, []⟩

/-- A leader world where the vault is initialized and sealed but the
leader database holds an unhelpful (empty) key list. -/
def staleKeysWorld : World :=
  ⟨true, true, false,
   { emptyVault with initialized := true, keyset := ["k1"] },
   [("keys", StoreVal.ks [])]⟩

/-- A sealed, initialized leader world whose leader database stores the
correct unseal key. -/
def validKeysWorld : World :=
  ⟨true, true, false,
   { emptyVault with initialized := true, keyset := ["k1"] },
   [("keys", StoreVal.ks ["k1"])]⟩

/-- Claim C3: can_restart returns exactly per the ordered decision
table of spec 4.4, first match wins, for every combination of the four
inputs: not running, or the unsafe flag, or not initialized, or sealed
give true; running, safe, initialized and unsealed gives false. -/
theorem can_restart_matches_spec_table (w : World) :
    can_restart w =
      canRestartSpec w.serviceRunning w.unsafeUnlock w.vault.initialized w.vault.sealed := by
  cases hw : w.serviceRunning <;> cases hu : w.unsafeUnlock <;>
    cases hi : w.vault.initialized <;> cases hs : w.vault.sealed <;>
      simp [can_restart, canRestartSpec, hw, hu, hi, hs]

/-- Claim C10: opportunistic_restart performs exactly one process
supervision action: a restart of the vault service precisely when
can_restart is true, and a plain start precisely when it is false. -/
theorem opportunistic_restart_single_action (w : World) :
    (opportunistic_restart w).length = 1 ∧
    (Event.serviceRestart "vault" ∈ opportunistic_restart w ↔ can_restart w = true) ∧
    (Event.serviceStart "vault" ∈ opportunistic_restart w ↔ can_restart w = false) := by
  cases h : can_restart w <;> simp [opportunistic_restart, h]

/-- Claim C8: configure_secret_backend is idempotent: starting from a
server where the mount is absent, the first call performs exactly one
enable-secret-backend call, after which the mount name with a trailing
slash is listed, and the second call performs no mutation and no remote
call. -/
theorem configure_secret_backend_idempotent (v : VaultServer) (name : String)
    (h : (name ++ "/") ∉ v.mounts) :
    (configure_secret_backend v name).2 = [Event.enableSecretBackend name] ∧
    (name ++ "/") ∈ (configure_secret_backend v name).1.mounts ∧
    configure_secret_backend (configure_secret_backend v name).1 name
      = ((configure_secret_backend v name).1, []) := by
  simp [configure_secret_backend, h]

theorem configure_secret_backend_idempotent_witness :
    ("charm-foo" ++ "/") ∉ emptyVault.mounts ∧
    ((configure_secret_backend emptyVault "charm-foo").2
        = [Event.enableSecretBackend "charm-foo"] ∧
     ("charm-foo" ++ "/") ∈ (configure_secret_backend emptyVault "charm-foo").1.mounts ∧
     configure_secret_backend (configure_secret_backend emptyVault "charm-foo").1 "charm-foo"
       = ((configure_secret_backend emptyVault "charm-foo").1, [])) :=
  ⟨by decide, configure_secret_backend_idempotent emptyVault "charm-foo" (by decide)⟩

theorem falsyToken_none : falsyToken none = true := rfl

theorem falsyToken_some_empty : falsyToken (some "") = true := rfl

/-- Claim C9: setup_charm_vault_access treats any falsy token argument
as absent: with the empty string the call behaves exactly as with no
token, the resolved token is read from the leader database, and only a
non-empty explicit token is used directly. -/
theorem setup_access_token_falsy (w : World) (t : String) :
    setup_charm_vault_access w (some "") = setup_charm_vault_access w none ∧
    resolveToken w.db (some "") = leaderTokenLookup w.db ∧
    (t ≠ "" → resolveToken w.db (some t) = some t) := by
  refine ⟨?_, ?_, ?_⟩
  · simp [setup_charm_vault_access, resolveToken, falsyToken_some_empty, falsyToken_none]
  · simp [resolveToken, falsyToken_some_empty]
  · intro ht
    have hempty : t.isEmpty = false := by
      cases hcase : t.isEmpty
      · rfl
      · exact absurd ((String.isEmpty_iff t).mp hcase) ht
    simp [resolveToken, falsyToken, hempty]

theorem setup_access_token_falsy_witness :
    setup_charm_vault_access baseWorld (some "") = setup_charm_vault_access baseWorld none ∧
    resolveToken baseWorld.db (some "secret-token") = some "secret-token" :=
  ⟨(setup_access_token_falsy baseWorld "secret-token").1,
   (setup_access_token_falsy baseWorld "secret-token").2.2 (by decide)⟩

/-- Every attempt failing makes attemptFrom run through all its fuel
and return the error of the last attempt, counting one call per
attempt. -/
theorem attemptFrom_all_fail (request : Nat → Except String Health) (errs : Nat → String)
    (h : ∀ j, request j = Except.error (errs j)) :
    ∀ m i, attemptFrom request i (m + 1) = (Except.error (errs (i + m)), m + 1) := by
  intro m
  induction m with
  | zero => intro i; simp [attemptFrom, h i]
  | succ m ih =>
    intro i
    have hrec := ih (i + 1)
    have hadd : i + 1 + m = i + (m + 1) := by omega
    simp [attemptFrom, h i, hrec, hadd]

/-- Claim C7: against a server failing at the transport level on every
request, get_vault_health makes exactly 10 attempts and then re-raises
the last transport error, unchanged. -/
theorem get_vault_health_retry_bound (request : Nat → Except String Health)
    (errs : Nat → String) (h : ∀ j, request j = Except.error (errs j)) :
    get_vault_health request = (Except.error (errs 9), 10) := by
  have := attemptFrom_all_fail request errs h 9 0
  simpa [get_vault_health] using this

theorem get_vault_health_retry_bound_witness :
    (∀ j, (fun i => (Except.error (Nat.repr i) : Except String Health)) j
        = Except.error (Nat.repr j)) ∧
    get_vault_health (fun i => Except.error (Nat.repr i))
      = (Except.error (Nat.repr 9), 10) :=
  ⟨fun _ => rfl, get_vault_health_retry_bound _ Nat.repr (fun _ => rfl)⟩

/-- The trace of runUnseal holds only unsealCall events. -/
theorem runUnseal_events (w : World) (ks : List String) (e : Event)
    (he : e ∈ (runUnseal w ks).tr) : ∃ k, e = Event.unsealCall k := by
  simp [runUnseal] at he
  obtain ⟨k, _, rfl⟩ := he
  exact ⟨k, rfl⟩

/-- The trace of unseal_vault holds only unsealCall events. -/
theorem unseal_vault_events (w : World) (keys : Option (List String)) (e : Event)
    (he : e ∈ (unseal_vault w keys).tr) : ∃ k, e = Event.unsealCall k := by
  cases keys with
  | none =>
    unfold unseal_vault unsealFromStore at he
    cases h : loadStoredKeys w.db with
    | error err => rw [h] at he; simp at he
    | ok ks => rw [h] at he; exact runUnseal_events w ks e he
  | some ks =>
    unfold unseal_vault at he
    cases hk : ks.isEmpty
    · simp [hk] at he
      exact runUnseal_events w ks e he
    · simp [hk] at he
      unfold unsealFromStore at he
      cases h : loadStoredKeys w.db with
      | error err => rw [h] at he; simp at he
      | ok ks2 => rw [h] at he; exact runUnseal_events w ks2 e he

/-- The trace of setup_charm_vault_access starts with the setupAccess
event and continues with auth, policy and role calls. -/
theorem setup_access_events (w : World) (token : Option String) (e : Event)
    (he : e ∈ (setup_charm_vault_access w token).1.tr) :
    e = Event.setupAccess w.vault.sealed (resolveToken w.db token) ∨
    e = Event.enableAuthBackend "approle" ∨
    e = Event.setPolicy CHARM_POLICY_NAME ∨
    e = Event.createRole CHARM_ACCESS_ROLE := by
  unfold setup_charm_vault_access enable_approle_auth at he
  by_cases h : "approle/" ∈ w.vault.authBackends <;> simp [h] at he <;> tauto

/-- In a pass without leadership, every event of the trace is an unseal
key submission. -/
theorem prepare_vault_not_leader_events (w : World) (hL : w.isLeader = false) (e : Event)
    (he : e ∈ (prepare_vault w).tr) : ∃ k, e = Event.unsealCall k := by
  unfold prepare_vault at he
  cases hr : w.serviceRunning
  · rw [hr] at he; simp at he
  · rw [hr] at he
    simp only [Bool.not_true, Bool.false_eq_true, if_false, healthOf, hL, Bool.and_false] at he
    simp at he
    cases hs : w.vault.sealed
    · rw [hs] at he; simp at he
    · rw [hs] at he
      simp at he
      rcases hu : unseal_vault w none with ⟨w2, tr2, e2⟩
      rw [hu] at he
      cases e2 <;> simp at he <;>
        exact unseal_vault_events w none e (by rw [hu]; simpa using he)

/-- Claim C5: in every pass where the unit is not the leader, no write
to the leader database occurs and no initialize call is made, whatever
the server health. -/
theorem prepare_vault_leader_gating (w : World) (hL : w.isLeader = false) :
    (∀ kvs, Event.leaderSet kvs ∉ (prepare_vault w).tr) ∧
    (∀ a b, Event.initializeCall a b ∉ (prepare_vault w).tr) := by
  constructor
  · intro kvs hmem
    obtain ⟨k, hk⟩ := prepare_vault_not_leader_events w hL _ hmem
    exact Event.noConfusion hk
  · intro a b hmem
    obtain ⟨k, hk⟩ := prepare_vault_not_leader_events w hL _ hmem
    exact Event.noConfusion hk

/-- A pass with the service not running is a pure deferral. -/
theorem prepare_vault_not_running (w : World) (hr : w.serviceRunning = false) :
    prepare_vault w = ⟨w, [], none⟩ := by
  simp [prepare_vault, hr]

/-- When the initialize guard is off (already initialized, or not the
leader), the trace holds only unseal and provisioning events. -/
theorem prepare_vault_no_init_events (w : World)
    (hng : (!w.vault.initialized && w.isLeader) = false) (e : Event)
    (he : e ∈ (prepare_vault w).tr) :
    (∃ k, e = Event.unsealCall k) ∨
    (∃ s t, e = Event.setupAccess s t) ∨
    e = Event.enableAuthBackend "approle" ∨
    e = Event.setPolicy CHARM_POLICY_NAME ∨
    e = Event.createRole CHARM_ACCESS_ROLE := by
  unfold prepare_vault at he
  cases hr : w.serviceRunning
  · rw [hr] at he; simp at he
  · rw [hr] at he
    simp [healthOf, hng] at he
    cases hs : w.vault.sealed
    · rw [hs] at he
      simp at he
      cases hL : w.isLeader
      · rw [hL] at he; simp at he
      · rw [hL] at he
        simp at he
        rcases setup_access_events w none e he with h1 | h1 | h1 | h1
        · exact Or.inr (Or.inl ⟨_, _, h1⟩)
        · exact Or.inr (Or.inr (Or.inl h1))
        · exact Or.inr (Or.inr (Or.inr (Or.inl h1)))
        · exact Or.inr (Or.inr (Or.inr (Or.inr h1)))
    · rw [hs] at he
      simp at he
      rcases hu : unseal_vault w none with ⟨w2, tr2, e2⟩
      rw [hu] at he
      cases e2 with
      | some err =>
        simp at he
        exact Or.inl (unseal_vault_events w none e (by rw [hu]; simpa using he))
      | none =>
        cases hL : w.isLeader
        · rw [hL] at he
          simp at he
          exact Or.inl (unseal_vault_events w none e (by rw [hu]; simpa using he))
        · rw [hL] at he
          simp at he
          rcases he with he | he
          · exact Or.inl (unseal_vault_events w none e (by rw [hu]; simpa using he))
          · rcases setup_access_events w2 none e he with h1 | h1 | h1 | h1
            · exact Or.inr (Or.inl ⟨_, _, h1⟩)
            · exact Or.inr (Or.inr (Or.inl h1))
            · exact Or.inr (Or.inr (Or.inr (Or.inl h1)))
            · exact Or.inr (Or.inr (Or.inr (Or.inr h1)))

/-- When the leader initializes in a pass, the initialize call and the
leader database write of the bootstrap secrets are the first two trace
events, in that order. -/
theorem prepare_vault_init_decomp (w : World) (hr : w.serviceRunning = true)
    (hi : w.vault.initialized = false) (hL : w.isLeader = true) :
    ∃ rest, (prepare_vault w).tr
      = Event.initializeCall 1 1
        :: Event.leaderSet [("root_token", StoreVal.s mkRootToken),
             ("keys", StoreVal.ks ((List.range 1).map mkKey))]
        :: rest := by
  unfold prepare_vault initialize_vault
  rw [hr]
  simp [healthOf, hi, hL]
  cases hs : w.vault.sealed
  · simp
  · simp
    split <;> simp

/-- Claim C6: in every pass, the leader database write of the root
token and the unseal keys comes directly after a successful initialize
call and before any unseal key is submitted to the server. -/
theorem prepare_vault_sequencing (w : World) (a b : Nat)
    (h : Event.initializeCall a b ∈ (prepare_vault w).tr) :
    ∃ rest, (prepare_vault w).tr
        = Event.initializeCall 1 1
          :: Event.leaderSet [("root_token", StoreVal.s mkRootToken),
               ("keys", StoreVal.ks ((List.range 1).map mkKey))]
          :: rest ∧
      ∀ k, Event.unsealCall k ∈ (prepare_vault w).tr → Event.unsealCall k ∈ rest := by
  cases hr : w.serviceRunning
  · rw [prepare_vault_not_running w hr] at h; simp at h
  · by_cases hng : (!w.vault.initialized && w.isLeader) = false
    · rcases prepare_vault_no_init_events w hng _ h with ⟨k, hk⟩ | ⟨s, t, hk⟩ | hk | hk | hk <;>
        exact Event.noConfusion hk
    · have hg : (!w.vault.initialized && w.isLeader) = true := by
        cases hcase : (!w.vault.initialized && w.isLeader)
        · exact absurd hcase hng
        · rfl
      have hi : w.vault.initialized = false := by
        cases hcase : w.vault.initialized
        · rfl
        · rw [hcase] at hg; simp at hg
      have hL : w.isLeader = true := by
        cases hcase : w.isLeader
        · rw [hcase] at hg; simp at hg
        · rfl
      obtain ⟨rest, hrest⟩ := prepare_vault_init_decomp w hr hi hL
      refine ⟨rest, hrest, ?_⟩
      intro k hk
      rw [hrest] at hk
      simp at hk
      exact hk

theorem prepare_vault_sequencing_witness :
    Event.initializeCall 1 1 ∈ (prepare_vault baseWorld).tr ∧
    ∃ rest, (prepare_vault baseWorld).tr
        = Event.initializeCall 1 1
          :: Event.leaderSet [("root_token", StoreVal.s mkRootToken),
               ("keys", StoreVal.ks ((List.range 1).map mkKey))]
          :: rest ∧
      ∀ k, Event.unsealCall k ∈ (prepare_vault baseWorld).tr → Event.unsealCall k ∈ rest :=
  ⟨by decide, prepare_vault_sequencing baseWorld 1 1 (by decide)⟩

theorem prepare_vault_leader_gating_witness :
    followerWorld.isLeader = false ∧
    ((∀ kvs, Event.leaderSet kvs ∉ (prepare_vault followerWorld).tr) ∧
     (∀ a b, Event.initializeCall a b ∉ (prepare_vault followerWorld).tr)) :=
  ⟨rfl, prepare_vault_leader_gating followerWorld rfl⟩

/-- Counterexample to claim C2 as stated: with the service running, the
server sealed and no keys published in the leader database, the pass
does not defer; the missing-keys failure (a KeyError on the leader
settings, there is no MissingKeysError in the code) propagates out of
prepare_vault. -/
theorem prepare_vault_missing_keys_fatal_cex :
    (prepare_vault followerWorld).err = some (Err.keyError "keys") := by decide

/-- Claim C2 amended: in every pass where the server is sealed and no
unseal keys are published (and the pass does not itself initialize),
the unseal step raises a KeyError for the missing "keys" entry and the
error propagates out of prepare_vault instead of being deferred. -/
theorem prepare_vault_missing_keys_error (w : World)
    (hr : w.serviceRunning = true) (hs : w.vault.sealed = true)
    (hk : leader_get w.db "keys" = none)
    (hg : w.vault.initialized = true ∨ w.isLeader = false) :
    (prepare_vault w).err = some (Err.keyError "keys") := by
  have hng : (!w.vault.initialized && w.isLeader) = false := by
    rcases hg with h | h <;> simp [h]
  unfold prepare_vault
  rw [hr]
  simp [healthOf, hng, hs, unseal_vault, unsealFromStore, loadStoredKeys, hk]

theorem prepare_vault_missing_keys_error_witness :
    (sealedLeaderWorld.serviceRunning = true ∧
     sealedLeaderWorld.vault.sealed = true ∧
     leader_get sealedLeaderWorld.db "keys" = none ∧
     sealedLeaderWorld.vault.initialized = true) ∧
    (prepare_vault sealedLeaderWorld).err = some (Err.keyError "keys") :=
  ⟨⟨rfl, rfl, rfl, rfl⟩,
   prepare_vault_missing_keys_error sealedLeaderWorld rfl rfl rfl (Or.inl rfl)⟩

/-- Claim C1 (code bug): a fresh-leader pass runs initialize_vault,
which publishes the root token under leader key "root_token", and then
calls setup_charm_vault_access with no token; the client is built with
the leader value under key "token", which is absent, and not with the
stored root token. -/
theorem setup_access_token_key_mismatch :
    leader_get (prepare_vault baseWorld).w.db "root_token"
      = some (StoreVal.s mkRootToken) ∧
    Event.setupAccess false none ∈ (prepare_vault baseWorld).tr := by decide

/-- Counterexample to claim C4 as stated: when the stored keys fail to
unseal the server (here an empty stored key list), the pass still
invokes setup_charm_vault_access while the server reports sealed. -/
theorem provisioning_while_sealed_cex :
    sealedProvisionFree (prepare_vault staleKeysWorld).tr = false := by decide

/-- Unseal submissions to an unsealed server never reseal it. -/
theorem foldl_submitKey_unsealed (ks : List String) (v : VaultServer)
    (hv : v.sealed = false) : (ks.foldl submitKey v).sealed = false := by
  induction ks generalizing v with
  | nil => simpa using hv
  | cons k ks ih =>
    have h1 : submitKey v k = v := by simp [submitKey, hv]
    rw [List.foldl_cons, h1]
    exact ih v hv

/-- Submitting enough valid key shares unseals the server: if the
current progress is below the threshold and the submitted list carries
the missing valid shares, the fold over submitKey ends unsealed. -/
theorem foldl_submitKey_reaches_threshold (ks : List String) (v : VaultServer)
    (hv : v.sealed = true) (hp : v.progress < v.threshold)
    (hc : v.threshold ≤ v.progress +
      (ks.filter (fun k => v.keyset.contains k)).length) :
    (ks.foldl submitKey v).sealed = false := by
  induction ks generalizing v with
  | nil =>
    simp at hc
    exact absurd hc (Nat.not_le.mpr hp)
  | cons k ks ih =>
    by_cases hmem : k ∈ v.keyset
    · by_cases hth : v.threshold ≤ v.progress + 1
      · have h1 : submitKey v k = { v with sealed := false, progress := 0 } := by
          simp [submitKey, hv, hmem, hth]
        rw [List.foldl_cons, h1]
        exact foldl_submitKey_unsealed ks _ rfl
      · have h1 : submitKey v k = { v with progress := v.progress + 1 } := by
          simp [submitKey, hv, hmem, hth]
        rw [List.foldl_cons, h1]
        apply ih
        · exact hv
        · show v.progress + 1 < v.threshold
          omega
        · show v.threshold ≤ v.progress + 1 +
            (ks.filter (fun k => v.keyset.contains k)).length
          simp only [List.filter_cons] at hc
          simp [hmem] at hc ⊢
          omega
    · have h1 : submitKey v k = v := by simp [submitKey, hv, hmem]
      rw [List.foldl_cons, h1]
      apply ih v hv hp
      simp only [List.filter_cons] at hc
      simp [hmem] at hc ⊢
      omega

/-- sealedProvisionFree distributes over trace concatenation. -/
theorem sealedProvisionFree_append (a b : List Event) :
    sealedProvisionFree (a ++ b)
      = (sealedProvisionFree a && sealedProvisionFree b) := by
  simp [sealedProvisionFree]

/-- Key submissions are never provisioning events. -/
theorem sealedProvisionFree_unsealCalls (ks : List String) :
    sealedProvisionFree (ks.map Event.unsealCall) = true := by
  simp [sealedProvisionFree, List.all_eq_true]

/-- The provisioning step records the seal state of the server it runs
against: its trace is sealed-provision-free exactly when that server is
unsealed. -/
theorem sealedProvisionFree_setup (w : World) (token : Option String) :
    sealedProvisionFree (setup_charm_vault_access w token).1.tr = !w.vault.sealed := by
  unfold setup_charm_vault_access enable_approle_auth
  by_cases h : "approle/" ∈ w.vault.authBackends <;> simp [h, sealedProvisionFree]

/-- Reading the stored keys back after initialize_vault wrote them
yields exactly the written list. -/
theorem loadStoredKeys_leader_set (db : List (String × StoreVal)) (tok : String)
    (l : List String) :
    loadStoredKeys (leader_set db
      [("root_token", StoreVal.s tok), ("keys", StoreVal.ks l)]) = Except.ok l := by
  simp [loadStoredKeys, leader_set, leader_get, List.find?]

/-- A successful key load means the leader database holds that list. -/
theorem loadStoredKeys_ok (db : List (String × StoreVal)) (ks : List String)
    (h : loadStoredKeys db = Except.ok ks) :
    leader_get db "keys" = some (StoreVal.ks ks) := by
  unfold loadStoredKeys at h
  cases hg : leader_get db "keys" with
  | none => rw [hg] at h; simp at h
  | some v =>
    cases v with
    | s sv => rw [hg] at h; simp at h
    | ks kv => rw [hg] at h; simp at h; rw [h]

/-- unseal_vault with no argument and a failing key load raises. -/
theorem unseal_vault_none_err (w : World) (e : Err)
    (hload : loadStoredKeys w.db = Except.error e) :
    unseal_vault w none = ⟨w, [], some e⟩ := by
  simp [unseal_vault, unsealFromStore, hload]

/-- unseal_vault with no argument and a successful key load submits
each stored key in order. -/
theorem unseal_vault_none_ok (w : World) (ks : List String)
    (hload : loadStoredKeys w.db = Except.ok ks) :
    unseal_vault w none
      = ⟨{ w with vault := ks.foldl submitKey w.vault },
         ks.map Event.unsealCall, none⟩ := by
  simp [unseal_vault, unsealFromStore, hload, runUnseal]

/-- Claim C4 amended: provisioning only runs against an unsealed server
in every pass whose starting state satisfies the vault invariants
(uninitialized implies sealed; sealed implies unseal progress below the
threshold) and whose stored key list, when it loads, holds enough valid
key shares to unseal the server. Without the key-sufficiency condition
the guarantee fails: prepare_vault checks the seal state only in the
initial health snapshot and does not re-check it after the unseal
step. -/
theorem prepare_vault_no_sealed_provisioning (w : World)
    (hinv : w.vault.initialized = false → w.vault.sealed = true)
    (hprog : w.vault.sealed = true → w.vault.progress < w.vault.threshold)
    (hkeys : w.vault.sealed = true → w.vault.initialized = true →
      ∀ ks, leader_get w.db "keys" = some (StoreVal.ks ks) →
        w.vault.threshold ≤ w.vault.progress +
          (ks.filter (fun k => w.vault.keyset.contains k)).length) :
    sealedProvisionFree (prepare_vault w).tr = true := by
  cases hr : w.serviceRunning
  · rw [prepare_vault_not_running w hr]
    rfl
  · cases hL : w.isLeader
    · simp only [sealedProvisionFree, List.all_eq_true]
      intro e he
      obtain ⟨k, rfl⟩ := prepare_vault_not_leader_events w hL e he
      rfl
    · cases hi : w.vault.initialized
      · have hs : w.vault.sealed = true := hinv hi
        unfold prepare_vault
        rw [hr]
        simp [healthOf, hi, hL, hs, initialize_vault, unseal_vault, unsealFromStore,
              loadStoredKeys_leader_set, runUnseal,
              sealedProvisionFree_append, sealedProvisionFree, List.all_eq_true]
        intro x hx
        have hx2 := setup_access_events _ none x hx
        rcases hx2 with h1 | h1 | h1 | h1 <;> subst h1 <;> rfl
      · cases hs : w.vault.sealed
        · unfold prepare_vault
          rw [hr]
          simp [healthOf, hi, hL, hs, sealedProvisionFree_append,
                sealedProvisionFree, List.all_eq_true]
          intro x hx
          have hx2 := setup_access_events _ none x hx
          rcases hx2 with h1 | h1 | h1 | h1 <;> subst h1 <;> try rfl
          simp [hs]
        · cases hload : loadStoredKeys w.db with
          | error e =>
            unfold prepare_vault
            rw [hr]
            simp [healthOf, hi, hL, hs, unseal_vault_none_err w e hload,
                  sealedProvisionFree]
          | ok ks =>
            have hcount := hkeys hs hi ks (loadStoredKeys_ok w.db ks hload)
            have hseal2 := foldl_submitKey_reaches_threshold ks w.vault hs (hprog hs) hcount
            unfold prepare_vault
            rw [hr]
            simp [healthOf, hi, hL, hs, unseal_vault_none_ok w ks hload,
                  sealedProvisionFree_append, sealedProvisionFree_setup,
                  sealedProvisionFree_unsealCalls, hseal2]

theorem prepare_vault_no_sealed_provisioning_witness :
    sealedProvisionFree (prepare_vault validKeysWorld).tr = true :=
  prepare_vault_no_sealed_provisioning validKeysWorld
    (by decide) (by decide)
    (fun _ _ ks hks => by
      have h0 : (some (StoreVal.ks ["k1"]) : Option StoreVal)
          = some (StoreVal.ks ks) := by
        rw [← hks]; rfl
      have h1 : ks = ["k1"] := by
        injection h0 with h2
        injection h2 with h3
        exact h3.symm
      subst h1
      decide)
